import Mathlib

/-!
Verification of the release-automation script `.github/scripts/auto_release.py`
of the WildestAI VSCode extension repository.

The script is embedded shallowly:

* The changelog splice (`update_changelog`) is a pure text transformation;
  documents are modelled as `List Char`.  The Python code locates the insertion
  point with `re.search(r'## \[Unreleased\].*?\n(.*?\n)', content, re.DOTALL)`
  and uses `match.end()`.  Because the pattern begins with the literal marker
  and both `.*?` parts are non-greedy (with DOTALL the dot also matches
  newlines, so the literal `\n` atoms stop each `.*?` at the first newline),
  the match anchors at the leftmost occurrence of the marker that is followed
  by at least two newlines, and `end()` is one past the second newline after
  that occurrence.  If the first occurrence of the marker is not followed by
  two newlines then no later occurrence is either (the text after a later
  occurrence is a suffix of the text after the first), so the search fails.
  `unreleasedMatchEnd` below implements exactly that: first occurrence of the
  marker, then the first two newlines after it.

* The effectful part of the script is modelled by a writer-style monad `M`
  that records a trace of observable effects (prints, file reads and writes,
  executed shell commands) together with an `Outcome`: normal return,
  `sys.exit(code)`, or an uncaught Python exception (`raised`).  Python
  terminates with a non-zero status both for `sys.exit(1)` and for an
  uncaught exception.

* External nondeterminism (shell command results, the contents of
  `package.json` and `CHANGELOG.md`, and the Claude API response) is an
  oracle, the `World` structure.  `subprocess.run(cmd, check=check)` raises
  `CalledProcessError` on a non-zero exit status when `check` is true; the
  exception message names the command and the status but not the captured
  standard error.  Schema validation by pydantic only constrains the three
  response fields to be strings, so any `VersionAnalysis` value is a
  schema-valid response.
-/

namespace AutoRelease

/-- Boolean test that the first list is an initial segment of the second. -/
def startsWithList : List Char → List Char → Bool
  | [], _ => true
  | _ :: _, [] => false
  | p :: ps, c :: cs => (p == c) && startsWithList ps cs

/-- Index of the first occurrence of a character in a list. -/
def findChar (c : Char) : List Char → Option Nat
  | [] => none
  | x :: xs => if x == c then some 0 else (findChar c xs).map (fun n => n + 1)

/-- Index of the first occurrence of `pat` as a contiguous sublist. -/
def findSubstr (pat : List Char) : List Char → Option Nat
  | [] => if startsWithList pat [] then some 0 else none
  | c :: cs =>
    if startsWithList pat (c :: cs) then some 0
    else (findSubstr pat cs).map (fun n => n + 1)

/-- The literal changelog anchor searched for by the script. -/
def markerStr : String := "## [Unreleased]"

/-- The anchor as a character list. -/
def markerChars : List Char := markerStr.data

/-- End position of the Python regex match
`re.search(r'## \[Unreleased\].*?\n(.*?\n)', content, re.DOTALL)`:
one past the second newline at or after the end of the first occurrence of
the marker, when both exist. -/
def unreleasedMatchEnd (doc : List Char) : Option Nat :=
  match findSubstr markerChars doc with
  | none => none
  | some i =>
    match findChar '\n' (doc.drop (i + markerChars.length)) with
    | none => none
    | some a =>
      match findChar '\n' ((doc.drop (i + markerChars.length)).drop (a + 1)) with
      | none => none
      | some b => some (i + markerChars.length + a + 1 + b + 1)

/-- Pure core of `update_changelog`: the text-interval splice
`content[:insert_pos] + "\n" + changelog_entry + "\n\n" + content[insert_pos:]`,
or `none` when the regex search fails (the script then exits with status 1
without writing the file). -/
def update_changelog (doc entry : List Char) : Option (List Char) :=
  match unreleasedMatchEnd doc with
  | none => none
  | some p =>
    some (doc.take p ++ ['\n'] ++ entry ++ ['\n', '\n'] ++ doc.drop p)

/-- Structured output class validated by pydantic.  The JSON schema constrains
each field to be a string and nothing more. -/
structure VersionAnalysis where
  version_bump : String
  new_version : String
  changelog_entry : String
deriving DecidableEq

/-- Result of one `subprocess.run` invocation. -/
structure CmdResult where
  returncode : Int
  stdout : String
  stderr : String

/-- Outcome of the Claude API call plus response parsing:
the call itself raises, or the raw text fails pydantic validation,
or a schema-valid response is obtained. -/
inductive LLMOutcome where
  | apiError (msg : String)
  | invalid (raw : String) (msg : String)
  | valid (raw : String) (response : VersionAnalysis)

/-- Environment variables read by the script (`os.getenv`). -/
structure Env where
  BASE_SHA : Option String
  HEAD_SHA : Option String
  PR_TITLE : Option String
  PR_BODY : Option String
  ANTHROPIC_API_KEY : Option String
  WILDESTAI_AZURE_PUBLISH_PAT : Option String
  OPENVSX_TOKEN : Option String
  GITHUB_OUTPUT : Option String

/-- External world oracle: shell command results, the `version` field of
`package.json`, the text of `CHANGELOG.md`, and the LLM response. -/
structure World where
  cmd : String → CmdResult
  packageVersion : String
  changelog : List Char
  llm : LLMOutcome

/-- Python truthiness of an `os.getenv` result: `not x` is true exactly when
the variable is absent or set to the empty string. -/
def truthy (o : Option String) : Bool := o.getD "" != ""

/-- Observable effects of a run. -/
inductive Effect where
  | print (s : String)
  | printErr (s : String)
  | readFile (name : String)
  | writeFile (name : String) (content : List Char)
  | appendFile (name : String) (content : String)
  | execCmd (c : String)
deriving DecidableEq

/-- Process outcome: normal value, `sys.exit code`, or an uncaught exception
(which makes the Python interpreter exit with status 1). -/
inductive Outcome (α : Type) where
  | ok (a : α)
  | exited (code : Nat)
  | raised (msg : String)
deriving DecidableEq

/-- Trace monad: every computation records its effects and its outcome. -/
structure M (α : Type) where
  effects : List Effect
  result : Outcome α
deriving DecidableEq

/-- Sequencing: effects accumulate; `exited` and `raised` short-circuit. -/
def M.bind {α β : Type} (m : M α) (f : α → M β) : M β :=
  match m.result with
  | Outcome.ok a => ⟨m.effects ++ (f a).effects, (f a).result⟩
  | Outcome.exited c => ⟨m.effects, Outcome.exited c⟩
  | Outcome.raised s => ⟨m.effects, Outcome.raised s⟩

instance : Monad M where
  pure a := ⟨[], Outcome.ok a⟩
  bind := M.bind

/-- Record one effect. -/
def emit (e : Effect) : M Unit := ⟨[e], Outcome.ok ()⟩

/-- Model of `sys.exit(1)`. -/
def exit1 {α : Type} : M α := ⟨[], Outcome.exited 1⟩

/-- Model of raising an uncaught exception. -/
def raiseExc {α : Type} (m : String) : M α := ⟨[], Outcome.raised m⟩

/-- Message of `subprocess.CalledProcessError`: it names the command and the
exit status; the captured standard error is carried only in an attribute and
does not appear in the printed traceback. -/
def cpeMessage (c : String) (code : Int) : String :=
  "subprocess.CalledProcessError: Command \x27" ++ c ++
    "\x27 returned non-zero exit status " ++ toString code ++ "."

/-- Model of `subprocess.run(cmd, shell=True, capture_output=True, text=True,
check=check)`: the command always runs; when `check` is true and the exit
status is non-zero, `CalledProcessError` is raised. -/
def subprocess_run (w : World) (c : String) (check : Bool) : M CmdResult := do
  emit (Effect.execCmd c)
  let r := w.cmd c
  if check = true ∧ r.returncode ≠ 0 then
    raiseExc (cpeMessage c r.returncode)
  else
    pure r

/-- Embedding of `run_command`.  Note that when `check` is true a failing
command already raises inside `subprocess_run`, so the branch below that
prints the captured standard error and exits is unreachable, exactly as in
the source. -/
def run_command (w : World) (c : String) (check : Bool) : M String := do
  emit (Effect.print ("Running: " ++ c))
  let result ← subprocess_run w c check
  if result.returncode ≠ 0 ∧ check = true then do
    emit (Effect.print ("Error: " ++ result.stderr))
    exit1
  else
    pure result.stdout.trim

/-- Embedding of `get_current_version`: reads the `version` field of
`package.json` (assumed present and well formed, as in every run the claims
quantify over). -/
def get_current_version (w : World) : M String := do
  emit (Effect.readFile "package.json")
  pure w.packageVersion

/-- Return value of `get_pr_details`. -/
structure PRDetails where
  title : String
  body : String
  commits : String
deriving DecidableEq

/-- Embedding of `get_pr_details`: defaulted environment reads plus one
`git log` invocation. -/
def get_pr_details (env : Env) (w : World) (base_sha head_sha : String) :
    M PRDetails := do
  let pr_title := env.PR_TITLE.getD ""
  let pr_body := env.PR_BODY.getD "No description provided"
  let commits ← run_command w
    ("git log --format=\x27%s%n%b\x27 " ++ (base_sha ++ (".." ++ head_sha))) true
  pure ⟨pr_title, pr_body, commits⟩

/-- Embedding of `analyze_version_bump`.  The prompt is sent to the API and
does not influence the local trace, so it is not reconstructed here.  The
whole call-and-parse block sits in a `try` whose `except` prints the error and
a stack trace and exits with status 1.  On success the three response fields
are returned verbatim; no relation between `new_version` and
`current_version` is checked. -/
def analyze_version_bump (env : Env) (w : World) (current_version : String)
    (pr : PRDetails) : M (String × String × String) := do
  let api_key := env.ANTHROPIC_API_KEY
  if truthy api_key = false then do
    emit (Effect.print "Error: ANTHROPIC_API_KEY environment variable not set")
    exit1
  else
    match w.llm with
    | LLMOutcome.apiError msg => do
        emit (Effect.print ("Error calling Claude API: " ++ msg))
        emit (Effect.printErr "Traceback (most recent call last): ...")
        exit1
    | LLMOutcome.invalid raw msg => do
        emit (Effect.print ("Claude response: " ++ raw))
        emit (Effect.print ("Error calling Claude API: " ++ msg))
        emit (Effect.printErr "Traceback (most recent call last): ...")
        exit1
    | LLMOutcome.valid raw r => do
        emit (Effect.print ("Claude response: " ++ raw))
        pure (r.version_bump, r.new_version, r.changelog_entry)

/-- Embedding of `update_package_json`. -/
def update_package_json (w : World) (new_version : String) : M Unit := do
  emit (Effect.print ("Updating package.json to version " ++ new_version))
  let _ ← run_command w
    ("npm version " ++ (new_version ++ " --no-git-tag-version")) true
  pure ()

/-- Embedding of the effectful `update_changelog` (read the file, splice via
the pure core, write the file or exit). -/
def update_changelogRun (w : World) (changelog_entry : String) :
    M (List Char) := do
  emit (Effect.print "Updating CHANGELOG.md")
  emit (Effect.readFile "CHANGELOG.md")
  match update_changelog w.changelog changelog_entry.data with
  | none => do
      emit (Effect.print "Error: Could not find [Unreleased] section in CHANGELOG.md")
      exit1
  | some new_content => do
      emit (Effect.writeFile "CHANGELOG.md" new_content)
      pure new_content

/-- Embedding of `commit_and_push`. -/
def commit_and_push (w : World) (new_version : String) : M Unit := do
  emit (Effect.print "Committing version changes")
  let _ ← run_command w "git config user.name \x27github-actions[bot]\x27" true
  let _ ← run_command w
    "git config user.email \x27github-actions[bot]@users.noreply.github.com\x27" true
  let _ ← run_command w "git add package.json package-lock.json CHANGELOG.md" true
  let _ ← run_command w
    ("git commit -m \x27chore: bump version to " ++ (new_version ++ " [skip ci]\x27")) true
  let _ ← run_command w "git push" true
  pure ()

/-- Embedding of `publish_extension`. -/
def publish_extension (env : Env) (w : World) : M Unit := do
  let vsce_token := env.WILDESTAI_AZURE_PUBLISH_PAT
  let ovsx_token := env.OPENVSX_TOKEN
  if truthy vsce_token = false ∨ truthy ovsx_token = false then do
    emit (Effect.print "Error: WILDESTAI_AZURE_PUBLISH_PAT or OPENVSX_TOKEN not set")
    exit1
  else do
    emit (Effect.print "Installing vsce and ovsx")
    let _ ← run_command w "npm install -g @vscode/vsce ovsx" true
    emit (Effect.print "Building extension")
    let _ ← run_command w "npm run package" true
    emit (Effect.print "Publishing to VSCode Marketplace")
    let _ ← run_command w ("vsce publish -p " ++ vsce_token.getD "") true
    emit (Effect.print "Publishing to Open VSX")
    let _ ← run_command w ("ovsx publish -p " ++ ovsx_token.getD "") true
    pure ()

/-- Embedding of `create_git_tag`. -/
def create_git_tag (w : World) (new_version : String) : M Unit := do
  emit (Effect.print ("Creating git tag v" ++ new_version))
  let _ ← run_command w
    ("git tag -a \x27v" ++ (new_version ++ ("\x27 -m \x27Release version " ++ (new_version ++ "\x27")))) true
  let _ ← run_command w "git push --tags" true
  pure ()

/-- Embedding of `main`: the linear fail-fast release flow. -/
def main (env : Env) (w : World) : M Unit := do
  emit (Effect.print "=== Starting automated release process ===")
  let base_sha := env.BASE_SHA
  let head_sha := env.HEAD_SHA
  if truthy base_sha = false ∨ truthy head_sha = false then do
    emit (Effect.print "Error: BASE_SHA or HEAD_SHA not set")
    exit1
  else do
    let current_version ← get_current_version w
    emit (Effect.print ("Current version: " ++ current_version))
    let pr ← get_pr_details env w (base_sha.getD "") (head_sha.getD "")
    emit (Effect.print ("PR Title: " ++ pr.title))
    let res ← analyze_version_bump env w current_version pr
    let version_bump := res.1
    let new_version := res.2.1
    let changelog_entry := res.2.2
    emit (Effect.print ("Version bump: " ++ version_bump))
    emit (Effect.print ("New version: " ++ new_version))
    emit (Effect.print ("Changelog:\n" ++ changelog_entry))
    update_package_json w new_version
    let _ ← update_changelogRun w changelog_entry
    commit_and_push w new_version
    publish_extension env w
    create_git_tag w new_version
    emit (Effect.print "=== Release process completed successfully ===")
    emit (Effect.print ("Version " ++ new_version ++ " has been published!"))
    if truthy env.GITHUB_OUTPUT = true then do
      emit (Effect.appendFile (env.GITHUB_OUTPUT.getD "")
        ("new_version=" ++ (new_version ++ "\n")))
      emit (Effect.appendFile (env.GITHUB_OUTPUT.getD "")
        ("changelog<<EOF\n" ++ (changelog_entry ++ "\nEOF\n")))
      pure ()
    else
      pure ()

/-- Boolean prefix test on strings, via the underlying character lists. -/
def strStarts (p s : String) : Bool := startsWithList p.data s.data

/-- Commands issued by the script that mutate local files or shared state
(manifest bump, git configuration/staging/commit/push/tag, tool install,
build, registry publishes).  The only other command the script runs is the
read-only `git log`. -/
def mutatingCmd (c : String) : Bool :=
  strStarts "npm version" c || strStarts "git config" c || strStarts "git add" c ||
  strStarts "git commit" c || strStarts "git push" c || strStarts "npm install" c ||
  strStarts "npm run" c || strStarts "vsce publish" c || strStarts "ovsx publish" c ||
  strStarts "git tag" c

/-- Effects that modify a local file, push/commit state, or publish. -/
def mutates : Effect → Bool
  | Effect.writeFile _ _ => true
  | Effect.appendFile _ _ => true
  | Effect.execCmd c => mutatingCmd c
  | _ => false

/-- Registry-publish commands. -/
def publishCmd (c : String) : Bool :=
  strStarts "vsce publish" c || strStarts "ovsx publish" c

/-- Effects that publish an artifact to a registry. -/
def isPublishEffect : Effect → Bool
  | Effect.execCmd c => publishCmd c
  | _ => false

/-- Effects that append to the GitHub Actions output file. -/
def isAppend : Effect → Bool
  | Effect.appendFile _ _ => true
  | _ => false

/-- Stack-trace output on the error stream. -/
def isTracebackPrint : Effect → Bool
  | Effect.printErr _ => true
  | _ => false

/-- Effects that rewrite the changelog file. -/
def writesChangelog : Effect → Bool
  | Effect.writeFile n _ => n == "CHANGELOG.md"
  | _ => false

/-- Does a printed line contain the given text as a substring? -/
def printMentions (s : String) : Effect → Bool
  | Effect.print t => (findSubstr s.data t.data).isSome
  | Effect.printErr t => (findSubstr s.data t.data).isSome
  | _ => false

/-- Does the process terminate with a non-zero status?  `raised` stands for an
uncaught Python exception, which makes the interpreter exit with status 1. -/
def exitsNonzero {α : Type} : Outcome α → Bool
  | Outcome.ok _ => false
  | Outcome.exited c => c != 0
  | Outcome.raised _ => true

/-- Split a character list on the dot character. -/
def splitDots : List Char → List (List Char)
  | [] => [[]]
  | c :: cs =>
    if c == '.' then [] :: splitDots cs
    else
      match splitDots cs with
      | [] => [[c]]
      | g :: gs => (c :: g) :: gs

/-- Numeric value of a non-empty list of decimal digits. -/
def natOfChars (l : List Char) : Option Nat :=
  match l with
  | [] => none
  | _ =>
    l.foldl
      (fun acc c =>
        match acc with
        | none => none
        | some n => if c.isDigit then some (n * 10 + (c.toNat - 48)) else none)
      (some 0)

/-- Specification-side parser of a three-component numeric version string
`A.B.C`, following the words of the spec; used only to compare the spec claim
about `new_version` with what the code returns. -/
def parseVersion (s : String) : Option (Nat × Nat × Nat) :=
  match (splitDots s.data).map natOfChars with
  | [some a, some b, some c] => some (a, b, c)
  | _ => none

/-- Specification-side component-increment rule for a bump kind, following
the words of the spec (patch increments C; minor increments B and zeros C;
major increments A and zeros B, C). -/
def specBumpNewVersion (kind : String) (v : Nat × Nat × Nat) :
    Option (Nat × Nat × Nat) :=
  if kind = "patch" then some (v.1, v.2.1, v.2.2 + 1)
  else if kind = "minor" then some (v.1, v.2.1 + 1, 0)
  else if kind = "major" then some (v.1 + 1, 0, 0)
  else none

/-- Specification-side strict semantic-versioning order on parsed versions. -/
def specSemverLt (a b : Nat × Nat × Nat) : Bool :=
  decide (a.1 < b.1) ||
    (decide (a.1 = b.1) &&
      (decide (a.2.1 < b.2.1) ||
        (decide (a.2.1 = b.2.1) && decide (a.2.2 < b.2.2))))

/-- Concrete changelog document with an Unreleased section (the marker starts
at index 13; the end of the line following the marker line is index 30). -/
def docW : List Char :=
  ("# Changelog\n\n## [Unreleased]\n\n## [1.0.0] - 2024-01-01\n- Initial release\n").data

/-- Concrete changelog entry for witnesses. -/
def entryW : List Char :=
  ("## [1.1.0] - 2025-01-01\n### Added\n- Something").data

/-- Concrete changelog document without the Unreleased marker. -/
def docNoMarker : List Char := ("# Changelog\n\nAll notable changes.\n").data

/-- Concrete changelog document whose Unreleased marker line is the last line
of the file: only one newline follows the marker. -/
def docLastLine : List Char := ("# Changelog\n\n## [Unreleased]\n").data

/-- Concrete schema-valid response that does follow the increment rule. -/
def respOk : VersionAnalysis :=
  ⟨"patch", "1.2.4", "## [1.2.4] - 2025-10-12\n### Fixed\n- Off-by-one"⟩

/-- Concrete schema-valid response whose version does not increase: pydantic
only checks that the fields are strings, so this response passes validation. -/
def respStale : VersionAnalysis :=
  ⟨"patch", "1.2.3", "## [1.2.3] - 2025-10-12\n### Fixed\n- Nothing"⟩

/-- Environment with every variable set. -/
def envFull : Env :=
  ⟨some "base", some "head", some "Fix parser", some "fix: off-by-one",
   some "api-key", some "vsce-token", some "ovsx-token", some "out.txt"⟩

/-- Environment missing BASE_SHA. -/
def envNoSha : Env :=
  ⟨none, some "head", some "Fix parser", some "fix: off-by-one",
   some "api-key", some "vsce-token", some "ovsx-token", some "out.txt"⟩

/-- Environment missing the LLM API credential. -/
def envNoKey : Env :=
  ⟨some "base", some "head", some "Fix parser", some "fix: off-by-one",
   none, some "vsce-token", some "ovsx-token", some "out.txt"⟩

/-- Environment missing the second registry credential. -/
def envNoOvsx : Env :=
  ⟨some "base", some "head", some "Fix parser", some "fix: off-by-one",
   some "api-key", some "vsce-token", none, some "out.txt"⟩

/-- Environment missing the PR title and body. -/
def envNoPr : Env :=
  ⟨some "base", some "head", none, none,
   some "api-key", some "vsce-token", some "ovsx-token", some "out.txt"⟩

/-- World where every command succeeds and the model answers with `respOk`. -/
def worldOk : World :=
  ⟨fun _ => ⟨0, "deadbeef", ""⟩, "1.2.3", docW, LLMOutcome.valid "raw-json" respOk⟩

/-- World where every command succeeds and the model answers with the
non-increasing `respStale`. -/
def worldStale : World :=
  ⟨fun _ => ⟨0, "deadbeef", ""⟩, "1.2.3", docW, LLMOutcome.valid "raw-json" respStale⟩

/-- World where the API call raises. -/
def worldApiErr : World :=
  ⟨fun _ => ⟨0, "deadbeef", ""⟩, "1.2.3", docW,
   LLMOutcome.apiError "Connection error"⟩

/-- World where exactly the `git push` command fails, with captured standard
error "fatal: boom". -/
def worldBoom : World :=
  ⟨fun c => if c = "git push" then ⟨1, "", "fatal: boom"⟩ else ⟨0, "deadbeef", ""⟩,
   "1.2.3", docW, LLMOutcome.valid "raw-json" respOk⟩

/-- World whose changelog has no Unreleased marker. -/
def worldNoMarker : World :=
  ⟨fun _ => ⟨0, "deadbeef", ""⟩, "1.2.3", docNoMarker,
   LLMOutcome.valid "raw-json" respOk⟩

/-! Semantic characterisations of the search primitives. -/

theorem startsWithList_eq_true_iff (p l : List Char) :
    startsWithList p l = true ↔ l.take p.length = p := by
  induction p generalizing l with
  | nil => simp [startsWithList]
  | cons x xs ih =>
    cases l with
    | nil => simp [startsWithList]
    | cons c cs =>
      simp only [startsWithList, Bool.and_eq_true, beq_iff_eq, List.length_cons,
        List.take_succ_cons, List.cons.injEq, ih]
      exact and_congr ⟨Eq.symm, Eq.symm⟩ Iff.rfl

theorem findChar_eq_some_iff (c : Char) (l : List Char) (a : Nat) :
    findChar c l = some a ↔
      l.get? a = some c ∧ ∀ j, j < a → l.get? j ≠ some c := by
  induction l generalizing a with
  | nil => simp [findChar]
  | cons x xs ih =>
    by_cases hx : x = c
    · subst hx
      cases a with
      | zero => simp [findChar]
      | succ n =>
        simp only [findChar, beq_self_eq_true, if_true]
        constructor
        · intro h; exact absurd h (by simp)
        · rintro ⟨-, h2⟩
          exact absurd rfl (h2 0 (Nat.succ_pos n))
    · have hx2 : (x == c) = false := beq_eq_false_iff_ne.mpr hx
      cases a with
      | zero =>
        simp only [findChar, hx2, Bool.false_eq_true, if_false, List.get?]
        constructor
        · intro h
          rcases Option.map_eq_some'.mp h with ⟨b, -, hb⟩
          exact absurd hb (by simp)
        · rintro ⟨h1, -⟩
          exact absurd (Option.some.inj h1) hx
      | succ n =>
        simp only [findChar, hx2, Bool.false_eq_true, if_false]
        constructor
        · intro h
          rcases Option.map_eq_some'.mp h with ⟨b, hb, hbn⟩
          have hbn2 : b = n := by omega
          rw [hbn2] at hb
          rcases (ih n).mp hb with ⟨h1, h2⟩
          refine ⟨h1, ?_⟩
          intro j hj
          cases j with
          | zero => simp only [List.get?]; intro hc; exact hx (Option.some.inj hc)
          | succ k => exact h2 k (by omega)
        · rintro ⟨h1, h2⟩
          have hxs : findChar c xs = some n := by
            refine (ih n).mpr ⟨h1, ?_⟩
            intro k hk
            exact h2 (k + 1) (by omega)
          rw [hxs]; rfl

theorem findChar_eq_none_iff (c : Char) (l : List Char) :
    findChar c l = none ↔ c ∉ l := by
  induction l with
  | nil => simp [findChar]
  | cons x xs ih =>
    by_cases hx : x = c
    · subst hx; simp [findChar]
    · have hx2 : (x == c) = false := beq_eq_false_iff_ne.mpr hx
      simp [findChar, hx2, ih, Ne.symm hx]

theorem findChar_lt_length (c : Char) (l : List Char) (a : Nat)
    (h : findChar c l = some a) : a < l.length := by
  have h1 := ((findChar_eq_some_iff c l a).mp h).1
  by_contra hlen
  rw [List.get?_eq_none.mpr (by omega)] at h1
  exact Option.noConfusion h1

theorem findSubstr_eq_some_iff (pat doc : List Char) (i : Nat) :
    findSubstr pat doc = some i ↔
      startsWithList pat (doc.drop i) = true ∧
        ∀ j, j < i → startsWithList pat (doc.drop j) = false := by
  induction doc generalizing i with
  | nil =>
    by_cases hp : startsWithList pat [] = true
    · simp only [findSubstr, hp, if_true, List.drop_nil, hp, true_and]
      constructor
      · intro h
        have : i = 0 := by exact (Option.some.inj h).symm
        subst this
        exact fun j hj => absurd hj (by omega)
      · intro h
        cases i with
        | zero => rfl
        | succ n => exact absurd hp (by simpa using h 0 (Nat.succ_pos n))
    · simp only [findSubstr, if_neg hp, List.drop_nil]
      simp only [Bool.not_eq_true] at hp
      simp [hp]
  | cons x xs ih =>
    by_cases hp : startsWithList pat (x :: xs) = true
    · simp only [findSubstr, hp, if_true]
      constructor
      · intro h
        have : i = 0 := (Option.some.inj h).symm
        subst this
        exact ⟨hp, fun j hj => absurd hj (by omega)⟩
      · rintro ⟨-, h2⟩
        cases i with
        | zero => rfl
        | succ n => exact absurd hp (by simpa using h2 0 (Nat.succ_pos n))
    · have hp2 : startsWithList pat (x :: xs) = false := by
        simpa using hp
      simp only [findSubstr, hp2, Bool.false_eq_true, if_false]
      cases i with
      | zero =>
        simp only [List.drop]
        constructor
        · intro h
          rcases Option.map_eq_some'.mp h with ⟨b, -, hb⟩
          exact absurd hb (by simp)
        · rintro ⟨h1, -⟩
          exact absurd h1 (by simp [hp2])
      | succ n =>
        constructor
        · intro h
          rcases Option.map_eq_some'.mp h with ⟨b, hb, hbn⟩
          have hbn2 : b = n := by omega
          rw [hbn2] at hb
          rcases (ih n).mp hb with ⟨h1, h2⟩
          refine ⟨h1, ?_⟩
          intro j hj
          cases j with
          | zero => exact hp2
          | succ k => exact h2 k (by omega)
        · rintro ⟨h1, h2⟩
          have hxs : findSubstr pat xs = some n := by
            refine (ih n).mpr ⟨h1, ?_⟩
            intro k hk
            exact h2 (k + 1) (by omega)
          rw [hxs]; rfl

theorem findSubstr_eq_none_iff (pat doc : List Char) :
    findSubstr pat doc = none ↔
      ∀ j, startsWithList pat (doc.drop j) = false := by
  induction doc with
  | nil =>
    by_cases hp : startsWithList pat [] = true
    · simp [findSubstr, hp]
    · simp only [Bool.not_eq_true] at hp
      simp [findSubstr, hp]
  | cons x xs ih =>
    by_cases hp : startsWithList pat (x :: xs) = true
    · simp only [findSubstr, hp, if_true]
      constructor
      · intro h; exact Option.noConfusion h
      · intro h
        have h0 := h 0
        rw [List.drop_zero] at h0
        exact Bool.noConfusion (h0 ▸ hp)
    · have hp2 : startsWithList pat (x :: xs) = false := by simpa using hp
      simp only [findSubstr, hp2, Bool.false_eq_true, if_false,
        Option.map_eq_none', ih]
      constructor
      · intro h j
        cases j with
        | zero => exact hp2
        | succ k => exact h k
      · intro h k
        exact h (k + 1)

/-! Reduction lemmas for the trace monad. -/

theorem bindM_eq {α β : Type} (m : M α) (f : α → M β) : m >>= f = M.bind m f := rfl

theorem M_bind_ok {α β : Type} (es : List Effect) (a : α) (f : α → M β) :
    M.bind ⟨es, Outcome.ok a⟩ f = ⟨es ++ (f a).effects, (f a).result⟩ := rfl

theorem M_bind_exited {α β : Type} (es : List Effect) (c : Nat) (f : α → M β) :
    M.bind ⟨es, Outcome.exited c⟩ f = ⟨es, Outcome.exited c⟩ := rfl

theorem M_bind_raised {α β : Type} (es : List Effect) (s : String) (f : α → M β) :
    M.bind ⟨es, Outcome.raised s⟩ f = ⟨es, Outcome.raised s⟩ := rfl

theorem pureM_eq {α : Type} (a : α) : (pure a : M α) = ⟨[], Outcome.ok a⟩ := rfl

/-! Behaviour of the command runner under the two oracle outcomes. -/

theorem run_command_ok (w : World) (c : String) (h : (w.cmd c).returncode = 0) :
    run_command w c true =
      ⟨[Effect.print ("Running: " ++ c), Effect.execCmd c],
        Outcome.ok (w.cmd c).stdout.trim⟩ := by
  simp [run_command, subprocess_run, emit, exit1, bindM_eq, M_bind_ok, M_bind_exited,
    M_bind_raised, pureM_eq, h]

theorem run_command_fail (w : World) (c : String) (h : (w.cmd c).returncode ≠ 0) :
    run_command w c true =
      ⟨[Effect.print ("Running: " ++ c), Effect.execCmd c],
        Outcome.raised (cpeMessage c (w.cmd c).returncode)⟩ := by
  simp [run_command, subprocess_run, emit, exit1, raiseExc, bindM_eq, M_bind_ok,
    M_bind_exited, M_bind_raised, pureM_eq, h]

/-! Derived facts about the match-end computation. -/

theorem unreleasedMatchEnd_le_length (doc : List Char) (p : Nat)
    (hp : unreleasedMatchEnd doc = some p) : p ≤ doc.length := by
  cases hfs : findSubstr markerChars doc with
  | none => simp [unreleasedMatchEnd, hfs] at hp
  | some i =>
    cases hfa : findChar '\n' (doc.drop (i + markerChars.length)) with
    | none => simp [unreleasedMatchEnd, hfs, hfa] at hp
    | some a =>
      cases hfb : findChar '\n' (doc.drop (i + markerChars.length + (a + 1))) with
      | none => simp [unreleasedMatchEnd, hfs, hfa, hfb] at hp
      | some b =>
        simp [unreleasedMatchEnd, hfs, hfa, hfb] at hp
        have hblt := findChar_lt_length _ _ _ hfb
        simp only [List.length_drop] at hblt
        omega

/-- C1: for a document containing the Unreleased marker (first occurrence at
`i`) whose marker line ends at newline offset `a` and whose following line
ends at newline offset `a + 1 + b`, the splice returns exactly the document
with the entry, surrounded by blank lines, inserted one position past that
second newline, all other bytes unchanged. -/
theorem update_changelog_splices_after_unreleased_line
    (doc entry : List Char) (i a b : Nat)
    (hi : (doc.drop i).take markerChars.length = markerChars)
    (himin : ∀ j, j < i → (doc.drop j).take markerChars.length ≠ markerChars)
    (ha : (doc.drop (i + markerChars.length)).get? a = some '\n')
    (hamin : ∀ j, j < a → (doc.drop (i + markerChars.length)).get? j ≠ some '\n')
    (hb : (doc.drop (i + markerChars.length)).get? (a + 1 + b) = some '\n')
    (hbmin : ∀ j, j < b →
      (doc.drop (i + markerChars.length)).get? (a + 1 + j) ≠ some '\n') :
    update_changelog doc entry =
      some (doc.take (i + markerChars.length + a + 1 + b + 1) ++ ['\n'] ++ entry ++
        ['\n', '\n'] ++ doc.drop (i + markerChars.length + a + 1 + b + 1)) := by
  have hfs : findSubstr markerChars doc = some i := by
    refine (findSubstr_eq_some_iff _ _ _).mpr
      ⟨(startsWithList_eq_true_iff _ _).mpr hi, ?_⟩
    intro j hj
    cases hsw : startsWithList markerChars (doc.drop j) with
    | false => rfl
    | true => exact absurd ((startsWithList_eq_true_iff _ _).mp hsw) (himin j hj)
  have hfa : findChar '\n' (doc.drop (i + markerChars.length)) = some a :=
    (findChar_eq_some_iff _ _ _).mpr ⟨ha, hamin⟩
  have hfb : findChar '\n' ((doc.drop (i + markerChars.length)).drop (a + 1)) = some b := by
    refine (findChar_eq_some_iff _ _ _).mpr ⟨?_, ?_⟩
    · rw [List.get?_drop]; exact hb
    · intro j hj; rw [List.get?_drop]; exact hbmin j hj
  simp only [update_changelog, unreleasedMatchEnd, hfs, hfa, hfb]

theorem update_changelog_splices_after_unreleased_line_witness :
    update_changelog docW entryW =
      some (docW.take (13 + markerChars.length + 0 + 1 + 0 + 1) ++ ['\n'] ++ entryW ++
        ['\n', '\n'] ++ docW.drop (13 + markerChars.length + 0 + 1 + 0 + 1)) :=
  update_changelog_splices_after_unreleased_line docW entryW 13 0 0
    (by decide) (by decide) (by decide) (by decide) (by decide) (by decide)

/-- C2: if the changelog text nowhere contains the Unreleased marker, the
splice refuses: the pure transformation returns nothing, and the changelog
step exits with status 1 without ever writing the changelog file. -/
theorem update_changelog_refuses_without_marker (w : World) (entry : String)
    (h : ∀ j, j < w.changelog.length →
      (w.changelog.drop j).take markerChars.length ≠ markerChars) :
    update_changelog w.changelog entry.data = none ∧
    (update_changelogRun w entry).result = Outcome.exited 1 ∧
    (update_changelogRun w entry).effects.any writesChangelog = false := by
  have hall : ∀ j, startsWithList markerChars (w.changelog.drop j) = false := by
    intro j
    by_cases hj : j < w.changelog.length
    · cases hsw : startsWithList markerChars (w.changelog.drop j) with
      | false => rfl
      | true => exact absurd ((startsWithList_eq_true_iff _ _).mp hsw) (h j hj)
    · rw [List.drop_eq_nil_of_le (by omega)]
      decide
  have hfs : findSubstr markerChars w.changelog = none :=
    (findSubstr_eq_none_iff _ _).mpr hall
  have hnone : update_changelog w.changelog entry.data = none := by
    simp only [update_changelog, unreleasedMatchEnd, hfs]
  refine ⟨hnone, ?_, ?_⟩ <;>
    simp [update_changelogRun, hnone, emit, exit1, bindM_eq, M_bind_ok,
      M_bind_exited, M_bind_raised, pureM_eq, writesChangelog]

theorem update_changelog_refuses_without_marker_witness :
    update_changelog worldNoMarker.changelog ("entry").data = none ∧
    (update_changelogRun worldNoMarker "entry").result = Outcome.exited 1 ∧
    (update_changelogRun worldNoMarker "entry").effects.any writesChangelog = false :=
  update_changelog_refuses_without_marker worldNoMarker "entry" (by decide)

/-- C6: removing from the spliced result the exact inserted block (the entry
plus its three surrounding newline characters, occupying positions `p` to
`p + entry.length + 3`) reproduces the original document byte for byte. -/
theorem update_changelog_insertion_removable
    (doc entry out : List Char) (p : Nat)
    (hp : unreleasedMatchEnd doc = some p)
    (hout : update_changelog doc entry = some out) :
    out.take p ++ out.drop (p + (entry.length + 3)) = doc := by
  have hple : p ≤ doc.length := unreleasedMatchEnd_le_length doc p hp
  have hout2 : out = doc.take p ++ ['\n'] ++ entry ++ ['\n', '\n'] ++ doc.drop p := by
    simp only [update_changelog, hp, Option.some.injEq] at hout
    exact hout.symm
  have hA : (doc.take p).length = p := by
    rw [List.length_take]; omega
  have htake : out.take p = doc.take p := by
    rw [hout2]
    rw [show doc.take p ++ ['\n'] ++ entry ++ ['\n', '\n'] ++ doc.drop p =
      doc.take p ++ (['\n'] ++ entry ++ ['\n', '\n'] ++ doc.drop p) by
        simp [List.append_assoc]]
    exact List.take_left' hA
  have hdrop : out.drop (p + (entry.length + 3)) = doc.drop p := by
    rw [hout2]
    rw [show doc.take p ++ ['\n'] ++ entry ++ ['\n', '\n'] ++ doc.drop p =
      (doc.take p ++ ['\n'] ++ entry ++ ['\n', '\n']) ++ doc.drop p by
        simp [List.append_assoc]]
    refine List.drop_left' ?_
    simp only [List.length_append, hA, List.length_cons, List.length_nil]
    omega
  rw [htake, hdrop, List.take_append_drop]

theorem update_changelog_insertion_removable_witness :
    (docW.take 30 ++ ['\n'] ++ entryW ++ ['\n', '\n'] ++ docW.drop 30).take 30 ++
      (docW.take 30 ++ ['\n'] ++ entryW ++ ['\n', '\n'] ++ docW.drop 30).drop
        (30 + (entryW.length + 3)) = docW :=
  update_changelog_insertion_removable docW entryW
    (docW.take 30 ++ ['\n'] ++ entryW ++ ['\n', '\n'] ++ docW.drop 30) 30
    (by decide) (by decide)

/-- C9: if the first occurrence of the Unreleased marker is followed by fewer
than two newline characters (for example the marker line is the last line of
the file), the splice refuses even though the marker is present. -/
theorem update_changelog_refuses_marker_without_following_line
    (doc entry : List Char) (i : Nat)
    (hi : (doc.drop i).take markerChars.length = markerChars)
    (himin : ∀ j, j < i → (doc.drop j).take markerChars.length ≠ markerChars)
    (h2 : (doc.drop (i + markerChars.length)).count '\n' < 2) :
    update_changelog doc entry = none := by
  have hfs : findSubstr markerChars doc = some i := by
    refine (findSubstr_eq_some_iff _ _ _).mpr
      ⟨(startsWithList_eq_true_iff _ _).mpr hi, ?_⟩
    intro j hj
    cases hsw : startsWithList markerChars (doc.drop j) with
    | false => rfl
    | true => exact absurd ((startsWithList_eq_true_iff _ _).mp hsw) (himin j hj)
  cases hfa : findChar '\n' (doc.drop (i + markerChars.length)) with
  | none => simp only [update_changelog, unreleasedMatchEnd, hfs, hfa]
  | some a =>
    have ha := ((findChar_eq_some_iff _ _ _).mp hfa).1
    have hnone :
        findChar '\n' ((doc.drop (i + markerChars.length)).drop (a + 1)) = none := by
      rw [findChar_eq_none_iff]
      intro hmem
      have h1 : 0 < ((doc.drop (i + markerChars.length)).drop (a + 1)).count '\n' :=
        List.count_pos_iff.mpr hmem
      have hmem2 : '\n' ∈ (doc.drop (i + markerChars.length)).take (a + 1) := by
        apply List.get?_mem (n := a)
        rw [List.get?_take (by omega)]
        exact ha
      have h12 : 0 < ((doc.drop (i + markerChars.length)).take (a + 1)).count '\n' :=
        List.count_pos_iff.mpr hmem2
      have hsplit : (doc.drop (i + markerChars.length)).count '\n' =
          ((doc.drop (i + markerChars.length)).take (a + 1)).count '\n' +
          ((doc.drop (i + markerChars.length)).drop (a + 1)).count '\n' := by
        conv_lhs => rw [← List.take_append_drop (a + 1) (doc.drop (i + markerChars.length))]
        rw [List.count_append]
      omega
    simp only [update_changelog, unreleasedMatchEnd, hfs, hfa, hnone]

theorem update_changelog_refuses_marker_without_following_line_witness :
    update_changelog docLastLine entryW = none :=
  update_changelog_refuses_marker_without_following_line docLastLine entryW 13
    (by decide) (by decide) (by decide)

/-! Prefix-classification helpers for commands built by string concatenation. -/

theorem startsWithList_append_left (p a t : List Char) (h : p.length ≤ a.length) :
    startsWithList p (a ++ t) = startsWithList p a := by
  induction p generalizing a with
  | nil => simp [startsWithList]
  | cons x xs ih =>
    cases a with
    | nil => simp at h
    | cons b bs =>
      simp only [List.cons_append, startsWithList]
      congr 1
      exact ih bs (by simpa using h)

theorem strStarts_append (p a t : String) (h : p.data.length ≤ a.data.length) :
    strStarts p (a ++ t) = strStarts p a := by
  simp only [strStarts, String.data_append]
  exact startsWithList_append_left _ _ _ h

theorem mutatingCmd_gitlog (s : String) :
    mutatingCmd ("git log --format=\x27%s%n%b\x27 " ++ s) = false := by
  unfold mutatingCmd
  rw [strStarts_append "npm version" "git log --format=\x27%s%n%b\x27 " s (by decide),
    strStarts_append "git config" "git log --format=\x27%s%n%b\x27 " s (by decide),
    strStarts_append "git add" "git log --format=\x27%s%n%b\x27 " s (by decide),
    strStarts_append "git commit" "git log --format=\x27%s%n%b\x27 " s (by decide),
    strStarts_append "git push" "git log --format=\x27%s%n%b\x27 " s (by decide),
    strStarts_append "npm install" "git log --format=\x27%s%n%b\x27 " s (by decide),
    strStarts_append "npm run" "git log --format=\x27%s%n%b\x27 " s (by decide),
    strStarts_append "vsce publish" "git log --format=\x27%s%n%b\x27 " s (by decide),
    strStarts_append "ovsx publish" "git log --format=\x27%s%n%b\x27 " s (by decide),
    strStarts_append "git tag" "git log --format=\x27%s%n%b\x27 " s (by decide)]
  decide

theorem publishCmd_gitlog (s : String) :
    publishCmd ("git log --format=\x27%s%n%b\x27 " ++ s) = false := by
  unfold publishCmd
  rw [strStarts_append "vsce publish" "git log --format=\x27%s%n%b\x27 " s (by decide),
    strStarts_append "ovsx publish" "git log --format=\x27%s%n%b\x27 " s (by decide)]
  decide

theorem publishCmd_npmversion (s : String) :
    publishCmd ("npm version " ++ s) = false := by
  unfold publishCmd
  rw [strStarts_append "vsce publish" "npm version " s (by decide),
    strStarts_append "ovsx publish" "npm version " s (by decide)]
  decide

theorem publishCmd_gitcommit (s : String) :
    publishCmd ("git commit -m \x27chore: bump version to " ++ s) = false := by
  unfold publishCmd
  rw [strStarts_append "vsce publish" "git commit -m \x27chore: bump version to " s (by decide),
    strStarts_append "ovsx publish" "git commit -m \x27chore: bump version to " s (by decide)]
  decide

theorem publishCmd_gitconfig_name :
    publishCmd "git config user.name \x27github-actions[bot]\x27" = false := by decide

theorem publishCmd_gitconfig_email :
    publishCmd
      "git config user.email \x27github-actions[bot]@users.noreply.github.com\x27" = false := by
  decide

theorem publishCmd_gitadd :
    publishCmd "git add package.json package-lock.json CHANGELOG.md" = false := by decide

theorem publishCmd_gitpush : publishCmd "git push" = false := by decide

/-! Execution lemmas for the individual steps of the flow. -/

theorem get_current_version_eq (w : World) :
    get_current_version w =
      ⟨[Effect.readFile "package.json"], Outcome.ok w.packageVersion⟩ := rfl

theorem get_pr_details_fail (env : Env) (w : World) (b h : String)
    (hc : (w.cmd ("git log --format=\x27%s%n%b\x27 " ++ (b ++ (".." ++ h)))).returncode ≠ 0) :
    get_pr_details env w b h =
      ⟨[Effect.print ("Running: " ++ ("git log --format=\x27%s%n%b\x27 " ++ (b ++ (".." ++ h)))),
        Effect.execCmd ("git log --format=\x27%s%n%b\x27 " ++ (b ++ (".." ++ h)))],
       Outcome.raised
         (cpeMessage ("git log --format=\x27%s%n%b\x27 " ++ (b ++ (".." ++ h)))
           (w.cmd ("git log --format=\x27%s%n%b\x27 " ++ (b ++ (".." ++ h)))).returncode)⟩ := by
  simp [get_pr_details, bindM_eq, run_command_fail, hc, M_bind_ok, M_bind_raised, pureM_eq]

theorem get_pr_details_ok (env : Env) (w : World) (b h : String)
    (hc : (w.cmd ("git log --format=\x27%s%n%b\x27 " ++ (b ++ (".." ++ h)))).returncode = 0) :
    get_pr_details env w b h =
      ⟨[Effect.print ("Running: " ++ ("git log --format=\x27%s%n%b\x27 " ++ (b ++ (".." ++ h)))),
        Effect.execCmd ("git log --format=\x27%s%n%b\x27 " ++ (b ++ (".." ++ h)))],
       Outcome.ok ⟨env.PR_TITLE.getD "", env.PR_BODY.getD "No description provided",
         (w.cmd ("git log --format=\x27%s%n%b\x27 " ++ (b ++ (".." ++ h)))).stdout.trim⟩⟩ := by
  simp [get_pr_details, bindM_eq, run_command_ok, hc, M_bind_ok, pureM_eq]

theorem analyze_ok (env : Env) (w : World) (cv : String) (pr : PRDetails)
    (raw : String) (r : VersionAnalysis)
    (hkey : truthy env.ANTHROPIC_API_KEY = true)
    (hllm : w.llm = LLMOutcome.valid raw r) :
    analyze_version_bump env w cv pr =
      ⟨[Effect.print ("Claude response: " ++ raw)],
       Outcome.ok (r.version_bump, r.new_version, r.changelog_entry)⟩ := by
  simp [analyze_version_bump, hkey, hllm, emit, bindM_eq, M_bind_ok, pureM_eq]

theorem analyze_apiError (env : Env) (w : World) (cv : String) (pr : PRDetails)
    (m : String)
    (hkey : truthy env.ANTHROPIC_API_KEY = true)
    (hllm : w.llm = LLMOutcome.apiError m) :
    analyze_version_bump env w cv pr =
      ⟨[Effect.print ("Error calling Claude API: " ++ m),
        Effect.printErr "Traceback (most recent call last): ..."],
       Outcome.exited 1⟩ := by
  simp [analyze_version_bump, hkey, hllm, emit, exit1, bindM_eq, M_bind_ok, pureM_eq]

theorem analyze_invalid (env : Env) (w : World) (cv : String) (pr : PRDetails)
    (raw m : String)
    (hkey : truthy env.ANTHROPIC_API_KEY = true)
    (hllm : w.llm = LLMOutcome.invalid raw m) :
    analyze_version_bump env w cv pr =
      ⟨[Effect.print ("Claude response: " ++ raw),
        Effect.print ("Error calling Claude API: " ++ m),
        Effect.printErr "Traceback (most recent call last): ..."],
       Outcome.exited 1⟩ := by
  simp [analyze_version_bump, hkey, hllm, emit, exit1, bindM_eq, M_bind_ok, pureM_eq]

theorem analyze_no_key (env : Env) (w : World) (cv : String) (pr : PRDetails)
    (hkey : truthy env.ANTHROPIC_API_KEY = false) :
    analyze_version_bump env w cv pr =
      ⟨[Effect.print "Error: ANTHROPIC_API_KEY environment variable not set"],
       Outcome.exited 1⟩ := by
  simp [analyze_version_bump, hkey, emit, exit1, bindM_eq, M_bind_ok, pureM_eq]

theorem update_package_json_ok (w : World) (v : String)
    (hc : ∀ c, (w.cmd c).returncode = 0) :
    update_package_json w v =
      ⟨[Effect.print ("Updating package.json to version " ++ v),
        Effect.print ("Running: " ++ ("npm version " ++ (v ++ " --no-git-tag-version"))),
        Effect.execCmd ("npm version " ++ (v ++ " --no-git-tag-version"))],
       Outcome.ok ()⟩ := by
  simp [update_package_json, emit, bindM_eq, run_command_ok, hc, M_bind_ok, pureM_eq]

theorem update_changelogRun_ok (w : World) (entry : String) (p : Nat)
    (hp : unreleasedMatchEnd w.changelog = some p) :
    update_changelogRun w entry =
      ⟨[Effect.print "Updating CHANGELOG.md",
        Effect.readFile "CHANGELOG.md",
        Effect.writeFile "CHANGELOG.md"
          (w.changelog.take p ++ ['\n'] ++ entry.data ++ ['\n', '\n'] ++ w.changelog.drop p)],
       Outcome.ok
         (w.changelog.take p ++ ['\n'] ++ entry.data ++ ['\n', '\n'] ++ w.changelog.drop p)⟩ := by
  have hsp : update_changelog w.changelog entry.data =
      some (w.changelog.take p ++ ['\n'] ++ entry.data ++ ['\n', '\n'] ++ w.changelog.drop p) := by
    simp only [update_changelog, hp]
  simp [update_changelogRun, hsp, emit, bindM_eq, M_bind_ok, pureM_eq]

theorem commit_and_push_ok (w : World) (v : String)
    (hc : ∀ c, (w.cmd c).returncode = 0) :
    commit_and_push w v =
      ⟨[Effect.print "Committing version changes",
        Effect.print ("Running: " ++ "git config user.name \x27github-actions[bot]\x27"),
        Effect.execCmd "git config user.name \x27github-actions[bot]\x27",
        Effect.print ("Running: " ++
          "git config user.email \x27github-actions[bot]@users.noreply.github.com\x27"),
        Effect.execCmd "git config user.email \x27github-actions[bot]@users.noreply.github.com\x27",
        Effect.print ("Running: " ++ "git add package.json package-lock.json CHANGELOG.md"),
        Effect.execCmd "git add package.json package-lock.json CHANGELOG.md",
        Effect.print ("Running: " ++
          ("git commit -m \x27chore: bump version to " ++ (v ++ " [skip ci]\x27"))),
        Effect.execCmd ("git commit -m \x27chore: bump version to " ++ (v ++ " [skip ci]\x27")),
        Effect.print ("Running: " ++ "git push"),
        Effect.execCmd "git push"],
       Outcome.ok ()⟩ := by
  simp [commit_and_push, emit, bindM_eq, run_command_ok, hc, M_bind_ok, pureM_eq]

theorem publish_extension_no_token (env : Env) (w : World)
    (htok : truthy env.WILDESTAI_AZURE_PUBLISH_PAT = false ∨
      truthy env.OPENVSX_TOKEN = false) :
    publish_extension env w =
      ⟨[Effect.print "Error: WILDESTAI_AZURE_PUBLISH_PAT or OPENVSX_TOKEN not set"],
        Outcome.exited 1⟩ := by
  simp only [publish_extension]
  rw [if_pos htok]
  simp [emit, exit1, bindM_eq, M_bind_ok, pureM_eq]

theorem publish_extension_ok (env : Env) (w : World)
    (hv : truthy env.WILDESTAI_AZURE_PUBLISH_PAT = true)
    (ho : truthy env.OPENVSX_TOKEN = true)
    (hc : ∀ c, (w.cmd c).returncode = 0) :
    publish_extension env w =
      ⟨[Effect.print "Installing vsce and ovsx",
        Effect.print ("Running: " ++ "npm install -g @vscode/vsce ovsx"),
        Effect.execCmd "npm install -g @vscode/vsce ovsx",
        Effect.print "Building extension",
        Effect.print ("Running: " ++ "npm run package"),
        Effect.execCmd "npm run package",
        Effect.print "Publishing to VSCode Marketplace",
        Effect.print ("Running: " ++
          ("vsce publish -p " ++ env.WILDESTAI_AZURE_PUBLISH_PAT.getD "")),
        Effect.execCmd ("vsce publish -p " ++ env.WILDESTAI_AZURE_PUBLISH_PAT.getD ""),
        Effect.print "Publishing to Open VSX",
        Effect.print ("Running: " ++ ("ovsx publish -p " ++ env.OPENVSX_TOKEN.getD "")),
        Effect.execCmd ("ovsx publish -p " ++ env.OPENVSX_TOKEN.getD "")],
       Outcome.ok ()⟩ := by
  simp [publish_extension, hv, ho, emit, bindM_eq, run_command_ok, hc, M_bind_ok, pureM_eq]

theorem create_git_tag_ok (w : World) (v : String)
    (hc : ∀ c, (w.cmd c).returncode = 0) :
    create_git_tag w v =
      ⟨[Effect.print ("Creating git tag v" ++ v),
        Effect.print ("Running: " ++
          ("git tag -a \x27v" ++ (v ++ ("\x27 -m \x27Release version " ++ (v ++ "\x27"))))),
        Effect.execCmd
          ("git tag -a \x27v" ++ (v ++ ("\x27 -m \x27Release version " ++ (v ++ "\x27")))),
        Effect.print ("Running: " ++ "git push --tags"),
        Effect.execCmd "git push --tags"],
       Outcome.ok ()⟩ := by
  simp [create_git_tag, emit, bindM_eq, run_command_ok, hc, M_bind_ok, pureM_eq]

/-- C3 (amended): the decision step performs no validation of the version
arithmetic: whenever the API key is set and the model returns a schema-valid
response, `analyze_version_bump` returns the response fields
`(version_bump, new_version, changelog_entry)` verbatim, so `new_version`
satisfies the strict-increase and component-increment rules only when the
model response itself does. -/
theorem analyze_version_bump_returns_response_verbatim
    (env : Env) (w : World) (current_version : String) (pr : PRDetails)
    (raw : String) (r : VersionAnalysis)
    (hkey : truthy env.ANTHROPIC_API_KEY = true)
    (hllm : w.llm = LLMOutcome.valid raw r) :
    (analyze_version_bump env w current_version pr).result =
      Outcome.ok (r.version_bump, r.new_version, r.changelog_entry) := by
  rw [analyze_ok env w current_version pr raw r hkey hllm]

theorem analyze_version_bump_returns_response_verbatim_witness :
    (analyze_version_bump envFull worldStale "1.2.3"
        ⟨"Fix parser", "fix: off-by-one", "log"⟩).result =
      Outcome.ok (respStale.version_bump, respStale.new_version,
        respStale.changelog_entry) :=
  analyze_version_bump_returns_response_verbatim envFull worldStale "1.2.3"
    ⟨"Fix parser", "fix: off-by-one", "log"⟩ "raw-json" respStale (by decide) rfl

/-- C3 counterexample: the claim as stated is false on the code.  With current
version 1.2.3 the schema-valid response `respStale` (bump kind patch,
new version 1.2.3) is accepted and returned unchanged, yet 1.2.3 is not
strictly greater than 1.2.3 under semantic-versioning order, and the patch
increment rule demands 1.2.4. -/
theorem analyze_version_bump_accepts_nonincreasing_version :
    (analyze_version_bump envFull worldStale "1.2.3"
        ⟨"Fix parser", "fix: off-by-one", "log"⟩).result =
      Outcome.ok ("patch", "1.2.3", respStale.changelog_entry) ∧
    parseVersion "1.2.3" = some (1, 2, 3) ∧
    specSemverLt (1, 2, 3) (1, 2, 3) = false ∧
    specBumpNewVersion "patch" (1, 2, 3) = some (1, 2, 4) ∧
    parseVersion "1.2.3" ≠ some (1, 2, 4) := by
  refine ⟨by decide, by decide, by decide, by decide, by decide⟩

/-- C10: absence of the PR-title and PR-body environment variables does not
cause failure: `get_pr_details` substitutes the empty string for the missing
title and "No description provided" for the missing body, and returns
normally. -/
theorem get_pr_details_defaults (env : Env) (w : World) (b h : String)
    (ht : env.PR_TITLE = none) (hb : env.PR_BODY = none)
    (hc : ∀ c, (w.cmd c).returncode = 0) :
    (get_pr_details env w b h).result =
      Outcome.ok ⟨"", "No description provided",
        (w.cmd ("git log --format=\x27%s%n%b\x27 " ++ (b ++ (".." ++ h)))).stdout.trim⟩ := by
  rw [get_pr_details_ok env w b h (hc _), ht, hb]
  rfl

theorem get_pr_details_defaults_witness :
    (get_pr_details envNoPr worldOk "base" "head").result =
      Outcome.ok ⟨"", "No description provided",
        (worldOk.cmd
          ("git log --format=\x27%s%n%b\x27 " ++ ("base" ++ (".." ++ "head")))).stdout.trim⟩ :=
  get_pr_details_defaults envNoPr worldOk "base" "head" rfl rfl (fun _ => rfl)

/-- C8: when the Claude API call raises, or its response fails schema
validation, the run prints the error together with a stack trace and
terminates immediately with exit status 1: no retry happens, and no
version-bump, changelog, commit, or publish step runs afterwards (the trace
contains no mutating effect at all). -/
theorem llm_failure_aborts_run (env : Env) (w : World)
    (hbase : truthy env.BASE_SHA = true) (hhead : truthy env.HEAD_SHA = true)
    (hkey : truthy env.ANTHROPIC_API_KEY = true)
    (hcmd : ∀ c, (w.cmd c).returncode = 0)
    (hllm : (∃ m, w.llm = LLMOutcome.apiError m) ∨
      (∃ raw m, w.llm = LLMOutcome.invalid raw m)) :
    (main env w).result = Outcome.exited 1 ∧
    (main env w).effects.any mutates = false ∧
    (main env w).effects.any isTracebackPrint = true := by
  have hgpr := fun b h => get_pr_details_ok env w b h (hcmd _)
  rcases hllm with ⟨m, hm⟩ | ⟨raw, m, hm⟩
  · have ean := fun cv pr => analyze_apiError env w cv pr m hkey hm
    refine ⟨?_, ?_, ?_⟩ <;>
      simp [main, bindM_eq, M_bind_ok, M_bind_exited, pureM_eq, emit,
        hbase, hhead, get_current_version_eq, hgpr, ean,
        mutates, mutatingCmd_gitlog, isTracebackPrint]
  · have ean := fun cv pr => analyze_invalid env w cv pr raw m hkey hm
    refine ⟨?_, ?_, ?_⟩ <;>
      simp [main, bindM_eq, M_bind_ok, M_bind_exited, pureM_eq, emit,
        hbase, hhead, get_current_version_eq, hgpr, ean,
        mutates, mutatingCmd_gitlog, isTracebackPrint]

theorem llm_failure_aborts_run_witness :
    (main envFull worldApiErr).result = Outcome.exited 1 ∧
    (main envFull worldApiErr).effects.any mutates = false ∧
    (main envFull worldApiErr).effects.any isTracebackPrint = true :=
  llm_failure_aborts_run envFull worldApiErr (by decide) (by decide) (by decide)
    (fun _ => rfl) (Or.inl ⟨"Connection error", rfl⟩)

/-- C4 (amended): whether a missing required environment variable stops the
run before any work depends on the variable.  Missing commit references stop
the run before anything at all happens; a missing LLM credential stops it
after only read-only steps (manifest read and `git log`), still before any
file is modified, commit pushed, or artifact published.  A missing registry
credential, however, is detected only inside the publish step: the run still
exits with status 1 and publishes nothing, but by then the changelog has been
rewritten and the commit pushed. -/
theorem missing_env_exit_behavior (env : Env) (w : World) (raw : String)
    (r : VersionAnalysis) (p : Nat) :
    ((truthy env.BASE_SHA = false ∨ truthy env.HEAD_SHA = false) →
      (main env w).result = Outcome.exited 1 ∧
      (main env w).effects.any mutates = false) ∧
    (truthy env.BASE_SHA = true → truthy env.HEAD_SHA = true →
      truthy env.ANTHROPIC_API_KEY = false →
      exitsNonzero (main env w).result = true ∧
      (main env w).effects.any mutates = false) ∧
    (truthy env.BASE_SHA = true → truthy env.HEAD_SHA = true →
      truthy env.ANTHROPIC_API_KEY = true →
      (∀ c, (w.cmd c).returncode = 0) →
      w.llm = LLMOutcome.valid raw r →
      unreleasedMatchEnd w.changelog = some p →
      (truthy env.WILDESTAI_AZURE_PUBLISH_PAT = false ∨
        truthy env.OPENVSX_TOKEN = false) →
      (main env w).result = Outcome.exited 1 ∧
      (main env w).effects.any isPublishEffect = false ∧
      (main env w).effects.any writesChangelog = true ∧
      Effect.execCmd "git push" ∈ (main env w).effects) := by
  refine ⟨?_, ?_, ?_⟩
  · intro hmiss
    rcases hmiss with hm | hm <;>
      refine ⟨?_, ?_⟩ <;>
        simp [main, bindM_eq, M_bind_ok, M_bind_exited, pureM_eq, emit, exit1, hm, mutates]
  · intro hbase hhead hkey
    have ean := fun cv pr => analyze_no_key env w cv pr hkey
    by_cases hgl : (w.cmd ("git log --format=\x27%s%n%b\x27 " ++
        (env.BASE_SHA.getD "" ++ (".." ++ env.HEAD_SHA.getD "")))).returncode = 0
    · have hgpr := get_pr_details_ok env w (env.BASE_SHA.getD "")
        (env.HEAD_SHA.getD "") hgl
      refine ⟨?_, ?_⟩ <;>
        simp [main, bindM_eq, M_bind_ok, M_bind_exited, pureM_eq, emit, hbase, hhead,
          get_current_version_eq, hgpr, ean,
          exitsNonzero, mutates, mutatingCmd_gitlog]
    · have hgpr := get_pr_details_fail env w (env.BASE_SHA.getD "")
        (env.HEAD_SHA.getD "") hgl
      refine ⟨?_, ?_⟩ <;>
        simp [main, bindM_eq, M_bind_ok, M_bind_raised, pureM_eq, emit, hbase, hhead,
          get_current_version_eq, hgpr, exitsNonzero, mutates,
          mutatingCmd_gitlog]
  · intro hbase hhead hkey hcmd hllm hp htok
    have hgpr := fun b h => get_pr_details_ok env w b h (hcmd _)
    have ean := fun cv pr => analyze_ok env w cv pr raw r hkey hllm
    have eup := fun v => update_package_json_ok w v hcmd
    have euc := fun e => update_changelogRun_ok w e p hp
    have ecp := fun v => commit_and_push_ok w v hcmd
    have epub := publish_extension_no_token env w htok
    refine ⟨?_, ?_, ?_, ?_⟩ <;>
      simp [main, bindM_eq, M_bind_ok, M_bind_exited, pureM_eq, emit, hbase, hhead,
        get_current_version_eq, hgpr, ean, eup, euc, ecp, epub,
        isPublishEffect, publishCmd_gitlog,
        publishCmd_npmversion, publishCmd_gitcommit, publishCmd_gitconfig_name,
        publishCmd_gitconfig_email, publishCmd_gitadd, publishCmd_gitpush,
        writesChangelog]

theorem missing_env_exit_behavior_witness :
    ((main envNoSha worldOk).result = Outcome.exited 1 ∧
      (main envNoSha worldOk).effects.any mutates = false) ∧
    (exitsNonzero (main envNoKey worldOk).result = true ∧
      (main envNoKey worldOk).effects.any mutates = false) ∧
    ((main envNoOvsx worldOk).result = Outcome.exited 1 ∧
      (main envNoOvsx worldOk).effects.any isPublishEffect = false ∧
      (main envNoOvsx worldOk).effects.any writesChangelog = true ∧
      Effect.execCmd "git push" ∈ (main envNoOvsx worldOk).effects) :=
  ⟨(missing_env_exit_behavior envNoSha worldOk "raw-json" respOk 30).1
     (Or.inl (by decide)),
   (missing_env_exit_behavior envNoKey worldOk "raw-json" respOk 30).2.1
     (by decide) (by decide) (by decide),
   (missing_env_exit_behavior envNoOvsx worldOk "raw-json" respOk 30).2.2
     (by decide) (by decide) (by decide) (fun _ => rfl) rfl (by decide)
     (Or.inr (by decide))⟩

/-- C4 counterexample: the claim as stated is false on the code.  With every
variable set except the second registry credential, and every external step
succeeding, the run does not exit before doing work: it rewrites the
changelog and pushes the commit, and only then detects the missing credential
and exits with status 1. -/
theorem missing_registry_token_detected_after_push :
    truthy envNoOvsx.OPENVSX_TOKEN = false ∧
    (main envNoOvsx worldOk).result = Outcome.exited 1 ∧
    Effect.execCmd "git push" ∈ (main envNoOvsx worldOk).effects ∧
    (main envNoOvsx worldOk).effects.any writesChangelog = true ∧
    (main envNoOvsx worldOk).effects.any mutates = true := by
  refine ⟨by decide, by decide, by decide, by decide, by decide⟩

/-- C5 (bug exhibit): because `run_command` passes `check=check` into
`subprocess.run`, a failing command raises `CalledProcessError` before the
stderr-printing branch is reached; the branch is dead code.  At the concrete
failing input (`git push` exits 1 with captured stderr "fatal: boom") the
whole run terminates non-zero with that uncaught exception, no later step
runs, and no printed line ever mentions the captured standard error. -/
theorem failed_command_aborts_without_surfacing_stderr :
    run_command worldBoom "git push" true =
      ⟨[Effect.print ("Running: " ++ "git push"), Effect.execCmd "git push"],
        Outcome.raised (cpeMessage "git push" 1)⟩ ∧
    (main envFull worldBoom).result = Outcome.raised (cpeMessage "git push" 1) ∧
    exitsNonzero (main envFull worldBoom).result = true ∧
    (main envFull worldBoom).effects.any isPublishEffect = false ∧
    Effect.execCmd "git add package.json package-lock.json CHANGELOG.md" ∈
      (main envFull worldBoom).effects ∧
    (main envFull worldBoom).effects.any (printMentions "fatal: boom") = false := by
  refine ⟨by decide, by decide, by decide, by decide, by decide, by decide⟩

/-- C7: when the output-file path is supplied and the whole run succeeds,
exactly two records are appended to that file: the new version line and the
changelog entry as a block delimited by a literal EOF marker. -/
theorem github_output_two_records (env : Env) (w : World) (raw : String)
    (r : VersionAnalysis) (p : Nat) (path : String)
    (hbase : truthy env.BASE_SHA = true) (hhead : truthy env.HEAD_SHA = true)
    (hkey : truthy env.ANTHROPIC_API_KEY = true)
    (hv : truthy env.WILDESTAI_AZURE_PUBLISH_PAT = true)
    (ho : truthy env.OPENVSX_TOKEN = true)
    (hcmd : ∀ c, (w.cmd c).returncode = 0)
    (hllm : w.llm = LLMOutcome.valid raw r)
    (hp : unreleasedMatchEnd w.changelog = some p)
    (hgo : env.GITHUB_OUTPUT = some path) (hpath : path ≠ "") :
    (main env w).result = Outcome.ok () ∧
    (main env w).effects.filter isAppend =
      [Effect.appendFile path ("new_version=" ++ (r.new_version ++ "\n")),
       Effect.appendFile path
         ("changelog<<EOF\n" ++ (r.changelog_entry ++ "\nEOF\n"))] := by
  have hne : (path != "") = true := bne_iff_ne.mpr hpath
  have hgo2 : truthy env.GITHUB_OUTPUT = true := by
    simp [truthy, hgo, hne]
  have hgo3 : truthy (some path) = true := by
    simp [truthy, hne]
  have hgpr := fun b h => get_pr_details_ok env w b h (hcmd _)
  have ean := fun cv pr => analyze_ok env w cv pr raw r hkey hllm
  have eup := fun v => update_package_json_ok w v hcmd
  have euc := fun e => update_changelogRun_ok w e p hp
  have ecp := fun v => commit_and_push_ok w v hcmd
  have epub := publish_extension_ok env w hv ho hcmd
  have etag := fun v => create_git_tag_ok w v hcmd
  refine ⟨?_, ?_⟩ <;>
    simp [main, bindM_eq, M_bind_ok, pureM_eq, emit, hbase, hhead,
      get_current_version_eq, hgpr, ean, eup, euc, ecp, epub, etag,
      hgo2, hgo3, hgo, isAppend]

theorem github_output_two_records_witness :
    (main envFull worldOk).result = Outcome.ok () ∧
    (main envFull worldOk).effects.filter isAppend =
      [Effect.appendFile "out.txt" ("new_version=" ++ (respOk.new_version ++ "\n")),
       Effect.appendFile "out.txt"
         ("changelog<<EOF\n" ++ (respOk.changelog_entry ++ "\nEOF\n"))] :=
  github_output_two_records envFull worldOk "raw-json" respOk 30 "out.txt"
    (by decide) (by decide) (by decide) (by decide) (by decide) (fun _ => rfl)
    rfl (by decide) rfl (by decide)

end AutoRelease
